import Mathlib

/-!
Verification of the Chirality Framework core
(`src/chirality/core/{ids,ops,types}.py`) against its specification.

The Python core is shallowly embedded: Python `int` values that occur here
(rows, columns, dimensions, sequence numbers) are modelled as `Nat`, which is
faithful because every such value in the embedded code arises from `len`,
`range` or a nonnegative literal; Python floor division `//` and `%` on these
nonnegative values coincide with `Nat` division and modulus.  `hashlib.sha256`
is embedded as a full executable SHA-256 over byte lists, and `.encode()` as
UTF-8 encoding.  Fallible Python code (exceptions) is embedded with `Except`.
-/

set_option synthInstance.maxSize 1000

namespace Chirality

/-! ## SHA-256 (model of `hashlib.sha256(...).hexdigest()`)

Arithmetic is on `Nat` with explicit reduction modulo `2^32`. -/

/-- `2^32`, the word modulus of SHA-256. -/
def pow32 : Nat := 4294967296

/-- Right rotation of a 32-bit word (input assumed `< 2^32`). -/
def rotr (x k : Nat) : Nat := (x >>> k) ||| ((x % (1 <<< k)) <<< (32 - k))

/-- SHA-256 small sigma 0. -/
def ssig0 (x : Nat) : Nat := (rotr x 7) ^^^ (rotr x 18) ^^^ (x >>> 3)

/-- SHA-256 small sigma 1. -/
def ssig1 (x : Nat) : Nat := (rotr x 17) ^^^ (rotr x 19) ^^^ (x >>> 10)

/-- SHA-256 big sigma 0. -/
def bsig0 (x : Nat) : Nat := (rotr x 2) ^^^ (rotr x 13) ^^^ (rotr x 22)

/-- SHA-256 big sigma 1. -/
def bsig1 (x : Nat) : Nat := (rotr x 6) ^^^ (rotr x 11) ^^^ (rotr x 25)

/-- SHA-256 choice function; `¬x` is `x ^^^ 0xffffffff` on 32-bit words. -/
def chF (x y z : Nat) : Nat := (x &&& y) ^^^ ((x ^^^ 4294967295) &&& z)

/-- SHA-256 majority function. -/
def majF (x y z : Nat) : Nat := (x &&& y) ^^^ (x &&& z) ^^^ (y &&& z)

/-- The 64 SHA-256 round constants (decimal). -/
def sha256K : List Nat :=
  [1116352408, 1899447441, 3049323471, 3921009573, 961987163,
   1508970993, 2453635748, 2870763221, 3624381080, 310598401,
   607225278, 1426881987, 1925078388, 2162078206, 2614888103,
   3248222580, 3835390401, 4022224774, 264347078, 604807628,
   770255983, 1249150122, 1555081692, 1996064986, 2554220882,
   2821834349, 2952996808, 3210313671, 3336571891, 3584528711,
   113926993, 338241895, 666307205, 773529912, 1294757372,
   1396182291, 1695183700, 1986661051, 2177026350, 2456956037,
   2730485921, 2820302411, 3259730800, 3345764771, 3516065817,
   3600352804, 4094571909, 275423344, 430227734, 506948616,
   659060556, 883997877, 958139571, 1322822218, 1537002063,
   1747873779, 1955562222, 2024104815, 2227730452, 2361852424,
   2428436474, 2756734187, 3204031479, 3329325298]

/-- The SHA-256 initial hash value (decimal). -/
def sha256H0 : List Nat :=
  [1779033703, 3144134277, 1013904242, 2773480762,
   1359893119, 2600822924, 528734635, 1541459225]

/-- One step of message-schedule extension: from a 16-word window
`[w0, w1, ..., w15]` compute the next word. -/
def schedStep (w : List Nat) : Nat :=
  match w with
  | w0 :: w1 :: _ :: _ :: _ :: _ :: _ :: _ :: _ :: w9 :: _ :: _ :: _ :: _ :: w14 :: _ :: _ =>
      (ssig1 w14 + w9 + ssig0 w1 + w0) % pow32
  | _ => 0

/-- Produce `fuel` further schedule words from a sliding 16-word window. -/
def schedExt (w : List Nat) : Nat → List Nat
  | 0 => []
  | fuel + 1 =>
      let n := schedStep w
      n :: schedExt (w.tail ++ [n]) fuel

/-- The full 64-word message schedule from a 16-word block. -/
def schedule (w : List Nat) : List Nat := w ++ schedExt w 48

/-- One SHA-256 compression round; the state is the 8-word list `[a..h]`. -/
def sha256Round (st : List Nat) (kw : Nat × Nat) : List Nat :=
  match st with
  | [a, b, c, d, e, f, g, h] =>
      let t1 := (h + bsig1 e + chF e f g + kw.1 + kw.2) % pow32
      let t2 := (bsig0 a + majF a b c) % pow32
      [(t1 + t2) % pow32, a, b, c, (d + t1) % pow32, e, f, g]
  | other => other

/-- Compress one 16-word block into the running 8-word hash state. -/
def sha256Compress (st : List Nat) (block : List Nat) : List Nat :=
  let final := ((schedule block).zip sha256K).foldl sha256Round st
  (st.zip final).map (fun p => (p.1 + p.2) % pow32)

/-- Big-endian 8-byte encoding of a (64-bit) natural number. -/
def be64 (n : Nat) : List Nat :=
  [(n >>> 56) &&& 255, (n >>> 48) &&& 255, (n >>> 40) &&& 255, (n >>> 32) &&& 255,
   (n >>> 24) &&& 255, (n >>> 16) &&& 255, (n >>> 8) &&& 255, n &&& 255]

/-- SHA-256 padding: append `0x80`, zero bytes to 56 mod 64, then the
bit length as 8 big-endian bytes. -/
def sha256Pad (msg : List Nat) : List Nat :=
  let L := msg.length
  let z := (119 - (L % 64)) % 64
  msg ++ [128] ++ List.replicate z 0 ++ be64 (8 * L)

/-- Group bytes four at a time into big-endian 32-bit words. -/
def bytesToWords : List Nat → List Nat
  | b0 :: b1 :: b2 :: b3 :: rest =>
      ((b0 <<< 24) ||| (b1 <<< 16) ||| (b2 <<< 8) ||| b3) :: bytesToWords rest
  | _ => []

/-- Group words sixteen at a time into blocks. -/
def wordsToBlocks : List Nat → List (List Nat)
  | w0 :: w1 :: w2 :: w3 :: w4 :: w5 :: w6 :: w7 ::
    w8 :: w9 :: w10 :: w11 :: w12 :: w13 :: w14 :: w15 :: rest =>
      [w0, w1, w2, w3, w4, w5, w6, w7, w8, w9, w10, w11, w12, w13, w14, w15] ::
        wordsToBlocks rest
  | _ => []

/-- SHA-256 of a byte list, as the 8-word final state. -/
def sha256Words (msg : List Nat) : List Nat :=
  (wordsToBlocks (bytesToWords (sha256Pad msg))).foldl sha256Compress sha256H0

/-- Lower-case hexadecimal digit characters. -/
def hexChars : List Char := "0123456789abcdef".data

/-- The hexadecimal digit character for `n % 16`. -/
def hexDigit (n : Nat) : Char := hexChars.getD (n % 16) '0'

/-- Fixed-width lower-case hexadecimal rendering of `n` (most significant
digit first). -/
def toHexW : Nat → Nat → List Char
  | 0, _ => []
  | w + 1, n => toHexW w (n / 16) ++ [hexDigit (n % 16)]

/-- Model of `hashlib.sha256(bytes).hexdigest()`: 64 lower-case hex chars. -/
def sha256HexBytes (msg : List Nat) : String :=
  ⟨((sha256Words msg).map (toHexW 8)).flatten⟩

/-- UTF-8 encoding of one character (model of Python `str.encode` per char). -/
def utf8Char (c : Char) : List Nat :=
  let n := c.toNat
  if n < 128 then [n]
  else if n < 2048 then [192 ||| (n >>> 6), 128 ||| (n &&& 63)]
  else if n < 65536 then
    [224 ||| (n >>> 12), 128 ||| ((n >>> 6) &&& 63), 128 ||| (n &&& 63)]
  else
    [240 ||| (n >>> 18), 128 ||| ((n >>> 12) &&& 63),
     128 ||| ((n >>> 6) &&& 63), 128 ||| (n &&& 63)]

/-- UTF-8 encoding of a string (model of Python `str.encode()`). -/
def utf8 (s : String) : List Nat := s.data.foldr (fun c acc => utf8Char c ++ acc) []

/-- Model of `hashlib.sha256(s.encode()).hexdigest()`. -/
def sha256Hex (s : String) : String := sha256HexBytes (utf8 s)

/-- Model of Python string slicing `s[:n]` (by characters/code points). -/
def strTake (s : String) (n : Nat) : String := ⟨s.data.take n⟩

/-! ## Canonicalizer (`ops.py`: `canonical_value`, `_normalize`)

`_normalize` is
`unicodedata.normalize("NFKC", str(s))` followed by
`re.sub(r"\s+", " ", s).strip()`. -/

/-- Python (`re` Unicode mode / `str.isspace`) whitespace characters. -/
def isWs (c : Char) : Bool :=
  let n := c.toNat
  (9 ≤ n && n ≤ 13) || (28 ≤ n && n ≤ 32) || n == 133 || n == 160 ||
    n == 5760 || (8192 ≤ n && n ≤ 8202) || n == 8232 || n == 8233 ||
    n == 8239 || n == 8287 || n == 12288

/-- Model of `unicodedata.normalize("NFKC", s)`, embedded as the identity:
every string that reaches `_normalize` in this development is ASCII, and NFKC
is the identity on ASCII strings. -/
def nfkc (s : String) : String := s

/-- State machine for `re.sub(r"\s+", " ", s)`: the flag records whether the
previous character was whitespace (so the current run is already emitted). -/
def subWsAux : Bool → List Char → List Char
  | _, [] => []
  | inRun, c :: cs =>
      if isWs c then
        if inRun then subWsAux true cs else ' ' :: subWsAux true cs
      else c :: subWsAux false cs

/-- Model of `re.sub(r"\s+", " ", s)`: replace every maximal whitespace run
with a single space. -/
def subWs (l : List Char) : List Char := subWsAux false l

/-- Left part of Python `str.strip()`. -/
def lstripWs (l : List Char) : List Char := l.dropWhile (isWs ·)

/-- Right part of Python `str.strip()`. -/
def rstripWs (l : List Char) : List Char := (l.reverse.dropWhile (isWs ·)).reverse

/-- Model of `_normalize` from `ops.py` (for non-`None` inputs): NFKC
normalization, whitespace-run collapse, strip. -/
def normalizeStr (s : String) : String := ⟨rstripWs (lstripWs (subWs (nfkc s).data))⟩

/-! ## Python values and `json.dumps`

`PyVal` models the Python values that flow through the core: strings,
ints, bools, `None`, lists, and string-keyed dicts (as ordered association
lists, preserving insertion order like Python dicts). -/

inductive PyVal where
  | str (s : String)
  | int (n : Int)
  | bool (b : Bool)
  | none
  | list (l : List PyVal)
  | dict (d : List (String × PyVal))

mutual

/-- Structural equality test for `PyVal` (Python `==` on these values). -/
def pvBeq : PyVal → PyVal → Bool
  | .str a, .str b => a == b
  | .int a, .int b => a == b
  | .bool a, .bool b => a == b
  | .none, .none => true
  | .list a, .list b => pvBeqList a b
  | .dict a, .dict b => pvBeqPairs a b
  | _, _ => false

def pvBeqList : List PyVal → List PyVal → Bool
  | [], [] => true
  | a :: as, b :: bs => pvBeq a b && pvBeqList as bs
  | _, _ => false

def pvBeqPairs : List (String × PyVal) → List (String × PyVal) → Bool
  | [], [] => true
  | (k, a) :: as, (k', b) :: bs => k == k' && pvBeq a b && pvBeqPairs as bs
  | _, _ => false

end

mutual

theorem pvBeq_eq : ∀ a b, pvBeq a b = true → a = b
  | .str _, .str _, h => by simpa [pvBeq] using congrArg PyVal.str (by simpa [pvBeq] using h)
  | .int _, .int _, h => congrArg PyVal.int (by simpa [pvBeq] using h)
  | .bool _, .bool _, h => congrArg PyVal.bool (by simpa [pvBeq] using h)
  | .none, .none, _ => rfl
  | .list a, .list b, h => congrArg PyVal.list (pvBeqList_eq a b (by simpa [pvBeq] using h))
  | .dict a, .dict b, h => congrArg PyVal.dict (pvBeqPairs_eq a b (by simpa [pvBeq] using h))

theorem pvBeqList_eq : ∀ a b, pvBeqList a b = true → a = b
  | [], [], _ => rfl
  | a :: as, b :: bs, h => by
      have h' : pvBeq a b = true ∧ pvBeqList as bs = true := by
        simpa [pvBeqList, Bool.and_eq_true] using h
      exact congrArg₂ (· :: ·) (pvBeq_eq a b h'.1) (pvBeqList_eq as bs h'.2)

theorem pvBeqPairs_eq : ∀ a b, pvBeqPairs a b = true → a = b
  | [], [], _ => rfl
  | (k, a) :: as, (k', b) :: bs, h => by
      have h' : (k == k') = true ∧ pvBeq a b = true ∧ pvBeqPairs as bs = true := by
        simpa [pvBeqPairs, Bool.and_eq_true, and_assoc] using h
      have hk : k = k' := by simpa using h'.1
      exact congrArg₂ (· :: ·) (by rw [hk, pvBeq_eq a b h'.2.1]) (pvBeqPairs_eq as bs h'.2.2)

end

mutual

theorem pvBeq_rfl : ∀ a, pvBeq a a = true
  | .str _ => by simp [pvBeq]
  | .int _ => by simp [pvBeq]
  | .bool _ => by simp [pvBeq]
  | .none => rfl
  | .list a => by simpa [pvBeq] using pvBeqList_rfl a
  | .dict a => by simpa [pvBeq] using pvBeqPairs_rfl a

theorem pvBeqList_rfl : ∀ a, pvBeqList a a = true
  | [] => rfl
  | a :: as => by simp [pvBeqList, pvBeq_rfl a, pvBeqList_rfl as]

theorem pvBeqPairs_rfl : ∀ a, pvBeqPairs a a = true
  | [] => rfl
  | (k, a) :: as => by simp [pvBeqPairs, pvBeq_rfl a, pvBeqPairs_rfl as]

end

instance : DecidableEq PyVal := fun a b =>
  if h : pvBeq a b = true then .isTrue (pvBeq_eq a b h)
  else .isFalse (fun he => h (he ▸ pvBeq_rfl a))

/-- One character of `json.dumps` string escaping.  With `ensureAscii` (the
Python default) every character outside `0x20..0x7e` is `\uXXXX`-escaped
(surrogate pairs above `0xFFFF`); without it only `"`, `\` and control
characters are escaped. -/
def jsonEscapeChar (ensureAscii : Bool) (c : Char) : List Char :=
  if c = '"' then ['\\', '"']
  else if c = '\\' then ['\\', '\\']
  else if c = '\n' then ['\\', 'n']
  else if c = '\r' then ['\\', 'r']
  else if c = '\t' then ['\\', 't']
  else if c.toNat = 8 then ['\\', 'b']
  else if c.toNat = 12 then ['\\', 'f']
  else if c.toNat < 32 then '\\' :: 'u' :: toHexW 4 c.toNat
  else if ensureAscii && 126 < c.toNat then
    if c.toNat < 65536 then '\\' :: 'u' :: toHexW 4 c.toNat
    else
      let n := c.toNat - 65536
      ('\\' :: 'u' :: toHexW 4 (55296 + (n >>> 10))) ++
        ('\\' :: 'u' :: toHexW 4 (56320 + (n &&& 1023)))
  else [c]

/-- `json.dumps` rendering of a string literal (quotes plus escaping). -/
def jsonQuote (ensureAscii : Bool) (s : String) : String :=
  ⟨'"' :: s.data.foldr (fun c acc => jsonEscapeChar ensureAscii c ++ acc) ['"']⟩

/-- Python `str(int)`. -/
def pyIntStr (n : Int) : String := toString n

/-- Python `<` on strings restricted to their character lists: strict
lexicographic comparison by code point. -/
def charListLt : List Char → List Char → Bool
  | _, [] => false
  | [], _ :: _ => true
  | a :: as, b :: bs =>
      a.toNat < b.toNat || (a.toNat == b.toNat && charListLt as bs)

/-- Python `<` on strings. -/
def strLtB (a b : String) : Bool := charListLt a.data b.data

/-- Python `<=` on strings (total order, so `a <= b` iff `¬ b < a`). -/
def strLeB (a b : String) : Bool := !(strLtB b a)

/-- The ascending order used by Python `sorted` on strings. -/
def strLeRel (a b : String) : Prop := strLeB a b = true

instance : DecidableRel strLeRel := fun a b => instDecidableEqBool (strLeB a b) true

/-- The key order used by `json.dumps(..., sort_keys=True)` on dict items. -/
def pairLeRel (p q : String × PyVal) : Prop := strLeRel p.1 q.1

instance : DecidableRel pairLeRel := fun p q => instDecidableEqBool (strLeB p.1 q.1) true

/-- Key order used by `json.dumps(..., sort_keys=True)` (Python `sorted` on
strings: lexicographic by code point). -/
def sortPairs (d : List (String × PyVal)) : List (String × PyVal) :=
  List.insertionSort pairLeRel d

mutual

/-- Recursively sort every dict of a value by key; `json.dumps` with
`sort_keys=True` equals plain serialization after this transformation. -/
def sortAll : PyVal → PyVal
  | .str s => .str s
  | .int n => .int n
  | .bool b => .bool b
  | .none => .none
  | .list l => .list (sortAllList l)
  | .dict d => .dict (sortPairs (sortAllPairs d))

def sortAllList : List PyVal → List PyVal
  | [] => []
  | v :: vs => sortAll v :: sortAllList vs

def sortAllPairs : List (String × PyVal) → List (String × PyVal)
  | [] => []
  | (k, v) :: ps => (k, sortAll v) :: sortAllPairs ps

end

mutual

/-- `json.dumps` with default separators (`", "` and `": "`), keys in the
order given.  `sort_keys=True` is modelled as `dumpsRaw` after `sortAll`. -/
def dumpsRaw (ea : Bool) : PyVal → String
  | .str s => jsonQuote ea s
  | .int n => pyIntStr n
  | .bool b => if b then "true" else "false"
  | .none => "null"
  | .list l => "[" ++ dumpsRawList ea l ++ "]"
  | .dict d => "\x7b" ++ dumpsRawPairs ea d ++ "\x7d"

def dumpsRawList (ea : Bool) : List PyVal → String
  | [] => ""
  | [v] => dumpsRaw ea v
  | v :: vs => dumpsRaw ea v ++ ", " ++ dumpsRawList ea vs

def dumpsRawPairs (ea : Bool) : List (String × PyVal) → String
  | [] => ""
  | [(k, v)] => jsonQuote ea k ++ ": " ++ dumpsRaw ea v
  | (k, v) :: ps => jsonQuote ea k ++ ": " ++ dumpsRaw ea v ++ ", " ++ dumpsRawPairs ea ps

end

/-- Model of `json.dumps(v, sort_keys=sk, ensure_ascii=ea)`. -/
def dumps (sortKeys ensureAscii : Bool) (v : PyVal) : String :=
  dumpsRaw ensureAscii (if sortKeys then sortAll v else v)

/-- Python `str(value)` for the non-str/dict/list fallback of
`canonical_value`. -/
def pyStr : PyVal → String
  | .str s => s
  | .int n => pyIntStr n
  | .bool b => if b then "True" else "False"
  | .none => "None"
  | .list l => dumpsRaw false (.list l)
  | .dict d => dumpsRaw false (.dict d)

/-- Model of `canonical_value` from `ops.py`: strings are `_normalize`d,
dicts are `json.dumps(..., sort_keys=True, ensure_ascii=False)`, lists are
`json.dumps(..., ensure_ascii=False)`, anything else is `str(value)`. -/
def canonical_value : PyVal → String
  | .str s => normalizeStr s
  | .dict d => dumps true false (.dict d)
  | .list l => dumps false false (.list l)
  | v => pyStr v

/-! ## Identifier generation (`ids.py`)

Every function that lets a missing timestamp default to
`datetime.utcnow().isoformat()` takes the ambient clock reading as an
explicit extra argument `now`. -/

/-- Python `sorted` on a list of strings (lexicographic by code point). -/
def pySorted (l : List String) : List String :=
  List.insertionSort strLeRel l

/-- `generate_thread_id` from `ids.py`. -/
def generate_thread_id (user_id session_id : String) (timestamp : Option String)
    (now : String) : String :=
  let ts := timestamp.getD now
  "thread_" ++ strTake (sha256Hex (user_id ++ ":" ++ session_id ++ ":" ++ ts)) 12

/-- `generate_matrix_id` from `ids.py`. -/
def generate_matrix_id (matrix_type thread_id : String) (sequence : Nat) : String :=
  "matrix_" ++ matrix_type ++ "_" ++
    strTake (sha256Hex (matrix_type ++ ":" ++ thread_id ++ ":" ++ toString sequence)) 12

/-- `generate_cell_id` from `ids.py`; `content` is serialized with
`json.dumps(content, sort_keys=True)` (so with the default `ensure_ascii`). -/
def generate_cell_id (matrix_id : String) (row col : Nat)
    (content : List (String × PyVal)) : String :=
  let sorted_content := dumps true true (.dict content)
  "cell_" ++
    strTake (sha256Hex (matrix_id ++ ":" ++ toString row ++ ":" ++ toString col ++
      ":" ++ sorted_content)) 12

/-- `generate_operation_id` from `ids.py`: hash of
`f"{operation_type}:{':'.join(sorted(input_ids))}:{timestamp}"`, the
timestamp defaulting to the current clock reading. -/
def generate_operation_id (operation_type : String) (input_ids : List String)
    (timestamp : Option String) (now : String) : String :=
  let ts := timestamp.getD now
  let inputs := String.intercalate ":" (pySorted input_ids)
  "op_" ++ strTake (sha256Hex (operation_type ++ ":" ++ inputs ++ ":" ++ ts)) 12

/-- `generate_provenance_hash` from `ids.py` (full digest, no tag). -/
def generate_provenance_hash (provenance_data : List (String × PyVal)) : String :=
  sha256Hex (dumps true true (.dict provenance_data))

/-! ## Data model (`types.py`) -/

/-- `Modality` from `types.py` (`axiom`, `theory`, `concept`, `process`,
`instance`, `value`, `unknown`). -/
inductive Modality where
  | axm | theo | conc | proc | inst | valu | unkn
deriving DecidableEq

/-- The string value of a `Modality` member. -/
def Modality.val : Modality → String
  | .axm => "axiom"
  | .theo => "theory"
  | .conc => "concept"
  | .proc => "process"
  | .inst => "instance"
  | .valu => "value"
  | .unkn => "unknown"

/-- `MatrixType` from `types.py`. -/
inductive MatrixType where
  | A | B | C | D | F | J
deriving DecidableEq

/-- The string value of a `MatrixType` member. -/
def MatrixType.val : MatrixType → String
  | .A => "A"
  | .B => "B"
  | .C => "C"
  | .D => "D"
  | .F => "F"
  | .J => "J"

deriving instance DecidableEq for Except

/-- Python exceptions surfaced by the embedded code. -/
inductive PyErr where
  | valueError (msg : String)
  | typeError (msg : String)
  | keyError (key : String)
  | indexError
  | moduleNotFoundError (module : String)
deriving DecidableEq

/-- `Cell` from `types.py`: row and column are Python ints, here `Nat`
(every cell in the embedded code is built from `range` indices). -/
structure Cell where
  id : String
  row : Nat
  col : Nat
  content : List (String × PyVal)
  modality : Modality := .unkn
  provenance : List (String × PyVal) := []
deriving DecidableEq

/-- `Matrix` from `types.py` (the spec's Grid). -/
structure Matrix where
  id : String
  type : MatrixType
  cells : List Cell
  dimensions : Nat × Nat
  metadata : List (String × PyVal) := []
deriving DecidableEq

/-- `Operation` from `types.py`. -/
structure Operation where
  id : String
  type : String
  inputs : List String
  outputs : List String
  timestamp : String
  metadata : List (String × PyVal) := []
deriving DecidableEq

/-- `Cell.to_dict`. -/
def Cell.toDict (c : Cell) : PyVal :=
  .dict [("id", .str c.id), ("row", .int c.row), ("col", .int c.col),
         ("content", .dict c.content), ("modality", .str c.modality.val),
         ("provenance", .dict c.provenance)]

/-- `Matrix.to_dict`. -/
def Matrix.toDict (m : Matrix) : PyVal :=
  .dict [("id", .str m.id), ("type", .str m.type.val),
         ("cells", .list (m.cells.map Cell.toDict)),
         ("dimensions", .list [.int m.dimensions.1, .int m.dimensions.2]),
         ("metadata", .dict m.metadata)]

/-- Python `data[key]` on a dict: the value, or `KeyError`. -/
def getItem (d : List (String × PyVal)) (k : String) : Except PyErr PyVal :=
  match d.find? (fun p => p.1 = k) with
  | some p => .ok p.2
  | Option.none => .error (.keyError k)

/-- Python `data.get(key, default)` on a dict. -/
def dictGet (d : List (String × PyVal)) (k : String) (default : PyVal) : PyVal :=
  match d.find? (fun p => p.1 = k) with
  | some p => p.2
  | Option.none => default

/-- Read a `PyVal` as a string (the typed fields of the dataclasses). -/
def asStr : PyVal → Except PyErr String
  | .str s => .ok s
  | _ => .error (.typeError "str expected")

/-- Read a `PyVal` as a nonnegative int. -/
def asNat : PyVal → Except PyErr Nat
  | .int (Int.ofNat m) => .ok m
  | .int _ => .error (.typeError "nonnegative int expected")
  | _ => .error (.typeError "int expected")

/-- Read a `PyVal` as a dict. -/
def asDict : PyVal → Except PyErr (List (String × PyVal))
  | .dict d => .ok d
  | _ => .error (.typeError "dict expected")

/-- `Modality(s)`: enum lookup by value, `ValueError` when absent. -/
def Modality.ofVal (s : String) : Except PyErr Modality :=
  if s = "axiom" then .ok .axm
  else if s = "theory" then .ok .theo
  else if s = "concept" then .ok .conc
  else if s = "process" then .ok .proc
  else if s = "instance" then .ok .inst
  else if s = "value" then .ok .valu
  else if s = "unknown" then .ok .unkn
  else .error (.valueError s)

/-- `MatrixType(s)`: enum lookup by value, `ValueError` when absent. -/
def MatrixType.ofVal (s : String) : Except PyErr MatrixType :=
  if s = "A" then .ok .A
  else if s = "B" then .ok .B
  else if s = "C" then .ok .C
  else if s = "D" then .ok .D
  else if s = "F" then .ok .F
  else if s = "J" then .ok .J
  else .error (.valueError s)

/-- `Cell.from_dict`. -/
def Cell.fromDict (v : PyVal) : Except PyErr Cell := do
  let d ← asDict v
  let id ← asStr (← getItem d "id")
  let row ← asNat (← getItem d "row")
  let col ← asNat (← getItem d "col")
  let content ← asDict (← getItem d "content")
  let modality ← Modality.ofVal (← asStr (dictGet d "modality" (.str "unknown")))
  let provenance ← asDict (dictGet d "provenance" (.dict []))
  .ok { id := id, row := row, col := col, content := content,
        modality := modality, provenance := provenance }

/-- Traversal of a list under `Except` (Python list comprehension whose body
may raise). -/
def exceptMapM (f : α → Except PyErr β) : List α → Except PyErr (List β)
  | [] => .ok []
  | a :: as => do
      let b ← f a
      let bs ← exceptMapM f as
      .ok (b :: bs)

/-- `Matrix.from_dict`. -/
def Matrix.fromDict (v : PyVal) : Except PyErr Matrix := do
  let d ← asDict v
  let id ← asStr (← getItem d "id")
  let type ← MatrixType.ofVal (← asStr (← getItem d "type"))
  let cellVals ← match ← getItem d "cells" with
    | .list l => Except.ok l
    | _ => Except.error (.typeError "list expected")
  let cells ← exceptMapM Cell.fromDict cellVals
  let dims ← match ← getItem d "dimensions" with
    | .list [a, b] => do
        let r ← asNat a
        let c ← asNat b
        Except.ok (r, c)
    | _ => Except.error (.typeError "pair expected")
  let metadata ← asDict (dictGet d "metadata" (.dict []))
  .ok { id := id, type := type, cells := cells, dimensions := dims,
        metadata := metadata }

/-! ## Operations (`ops.py`) -/

/-- The five operation symbols of the `Literal` kind type in `ops.py`. -/
inductive OpKind where
  | star | plus | cross | interp | odot
deriving DecidableEq

/-- The operation symbol string. -/
def OpKind.val : OpKind → String
  | .star => "*"
  | .plus => "+"
  | .cross => "×"
  | .interp => "interpret"
  | .odot => "⊙"

/-- `prompt_hash` from `ops.py`: sha256 over the normalized system prompt,
`"\n\n"`, the normalized user prompt, `"\n\n"`, and
`json.dumps(context, sort_keys=True)`. -/
def prompt_hash (system user : String) (context : List (String × PyVal)) : String :=
  sha256HexBytes
    (utf8 (normalizeStr system) ++ utf8 "\n\n" ++ utf8 (normalizeStr user) ++
      utf8 "\n\n" ++ utf8 (dumps true true (.dict context)))

/-- The resolver contract (`Resolver` protocol in `ops.py`): a 2-D array of
string values, or an exception. -/
def Resolver : Type :=
  OpKind → List Matrix → String → String → PyVal →
    Except PyErr (List (List String))

/-- The list-comprehension grid
`[[val(r, c) for c in range(cols)] for r in range(rows)]`. -/
def buildVals (rows cols : Nat) (f : Nat → Nat → String) : List (List String) :=
  (List.range rows).map (fun r => (List.range cols).map (fun c => f r c))

/-- `EchoResolver.resolve` from `ops.py`: the deterministic zero-LLM
resolver.  Tuple unpacking of `inputs` raises `ValueError` on arity
mismatch. -/
def echoResolve : Resolver := fun op inputs _system_prompt _user_prompt _context =>
  match op, inputs with
  | .star, [A, B] =>
      .ok (buildVals A.dimensions.1 B.dimensions.2 (fun r c =>
        "*:" ++ A.type.val ++ "[" ++ toString r ++ ",:]" ++ B.type.val ++
          "[:," ++ toString c ++ "]"))
  | .plus, [A, F] =>
      .ok (buildVals A.dimensions.1 A.dimensions.2 (fun r c =>
        "+:" ++ A.type.val ++ "[" ++ toString r ++ "," ++ toString c ++ "]⊕" ++
          F.type.val ++ "[" ++ toString r ++ "," ++ toString c ++ "]"))
  | .interp, [B] =>
      .ok (buildVals B.dimensions.1 B.dimensions.2 (fun r c =>
        "interp:" ++ B.type.val ++ "[" ++ toString r ++ "," ++ toString c ++ "]"))
  | .odot, [J, C] =>
      .ok (buildVals J.dimensions.1 J.dimensions.2 (fun r c =>
        "⊙:" ++ J.type.val ++ "[" ++ toString r ++ "," ++ toString c ++ "]×" ++
          C.type.val ++ "[" ++ toString r ++ "," ++ toString c ++ "]"))
  | .cross, [A, B] =>
      .ok (buildVals (A.dimensions.1 * B.dimensions.1) (A.dimensions.2 * B.dimensions.2)
        (fun r c =>
          "×:" ++ A.type.val ++ "[" ++ toString (r / B.dimensions.1) ++ "," ++
            toString (c / B.dimensions.2) ++ "]⨂" ++ B.type.val ++ "[" ++
            toString (r % B.dimensions.1) ++ "," ++ toString (c % B.dimensions.2) ++ "]"))
  | _, _ => .error (.valueError "unpack")

/-- `_prompt_multiply` from `ops.py`. -/
def promptMultiply (A B : Matrix) : String × String :=
  ("CF14 semantic multiplication (*) means intersection of semantics with identity preservation. Output a JSON object with 'shape' [rows, cols] and 'cells' as 2D array of strings.",
   dumps true true (.dict
     [("task", .str "C = A * B"),
      ("A", .dict [("type", .str A.type.val),
                   ("shape", .list [.int A.dimensions.1, .int A.dimensions.2])]),
      ("B", .dict [("type", .str B.type.val),
                   ("shape", .list [.int B.dimensions.1, .int B.dimensions.2])])]))

/-- `_prompt_add` from `ops.py`. -/
def promptAdd (A F : Matrix) : String × String :=
  ("CF14 semantic addition (+) means precise combination preserving source identities cell-wise. Return JSON with 'shape' and 'cells' 2D array, same shape as inputs.",
   dumps true true (.dict
     [("task", .str "D = A + F"),
      ("A", .dict [("type", .str A.type.val),
                   ("shape", .list [.int A.dimensions.1, .int A.dimensions.2])]),
      ("F", .dict [("type", .str F.type.val),
                   ("shape", .list [.int F.dimensions.1, .int F.dimensions.2])])]))

/-- `_prompt_interpret` from `ops.py`. -/
def promptInterpret (B : Matrix) : String × String :=
  ("Interpret/Truncate matrix into objectives. Preserve dimensions and indices; rewrite values for human understanding.",
   dumps true true (.dict
     [("task", .str "J = interpret(B)"),
      ("B", .dict [("type", .str B.type.val),
                   ("shape", .list [.int B.dimensions.1, .int B.dimensions.2])])]))

/-- `_prompt_elementwise` from `ops.py`. -/
def promptElementwise (J C : Matrix) : String × String :=
  ("CF14 element-wise multiplication (⊙) combines corresponding cells. Return JSON with same shape as inputs.",
   dumps true true (.dict
     [("task", .str "F = J ⊙ C"),
      ("J", .dict [("type", .str J.type.val),
                   ("shape", .list [.int J.dimensions.1, .int J.dimensions.2])]),
      ("C", .dict [("type", .str C.type.val),
                   ("shape", .list [.int C.dimensions.1, .int C.dimensions.2])])]))

/-- `_prompt_cross` from `ops.py`. -/
def promptCross (A B : Matrix) : String × String :=
  ("CF14 cross-product (×) expands relational possibilities. Return JSON with target shape.",
   dumps true true (.dict
     [("task", .str "W = A × B"),
      ("A", .dict [("type", .str A.type.val),
                   ("shape", .list [.int A.dimensions.1, .int A.dimensions.2])]),
      ("B", .dict [("type", .str B.type.val),
                   ("shape", .list [.int B.dimensions.1, .int B.dimensions.2])]),
      ("target_shape", .list [.int (A.dimensions.1 * B.dimensions.1),
                              .int (A.dimensions.2 * B.dimensions.2)])]))

/-- Python list indexing `l[i]`: `IndexError` when out of range. -/
def pyIndex (l : List α) (i : Nat) : Except PyErr α :=
  match l.get? i with
  | some a => .ok a
  | Option.none => .error .indexError

/-- `len(values[0]) if values else 0`: the column count
`_build_output_matrix` infers from the resolver's return value. -/
def headLen (values : List (List String)) : Nat :=
  match values with
  | [] => 0
  | v :: _ => v.length

/-- `_build_output_matrix` from `ops.py`: `rows = len(values)`,
`cols = len(values[0]) if values else 0`, no check of the resolver's shape;
`values[r][c]` may raise `IndexError` for rows shorter than the first.
`now` models the `datetime.utcnow().isoformat()` of the metadata
timestamp. -/
def buildOutputMatrix (thread : String) (matrix_type : MatrixType) (station : String)
    (values : List (List String)) (now : String) : Except PyErr Matrix := do
  let rows := values.length
  let cols := headLen values
  let matrix_id := generate_matrix_id matrix_type.val thread 1
  let rc := (List.range rows).flatMap (fun r => (List.range cols).map (fun c => (r, c)))
  let cells ← exceptMapM (fun (p : Nat × Nat) => do
      let row ← pyIndex values p.1
      let v ← pyIndex row p.2
      let cell_content := [("text", PyVal.str (canonical_value (.str v)))]
      Except.ok ({ id := generate_cell_id matrix_id p.1 p.2 cell_content,
                   row := p.1, col := p.2, content := cell_content } : Cell)) rc
  .ok { id := matrix_id, type := matrix_type, cells := cells,
        dimensions := (rows, cols),
        metadata := [("station", .str station), ("timestamp", .str now)] }

/-- `_op_record` from `ops.py`; `now` models the
`datetime.utcnow().isoformat()` read at the start of the function, which is
both the record's timestamp and the timestamp hashed into the operation id
(no timestamp argument is passed to `generate_operation_id`). -/
def opRecord (kind : OpKind) (inputs : List Matrix) (output : Matrix)
    (system_prompt user_prompt : String) (now : String) : Operation :=
  let prompt_hash_val := prompt_hash system_prompt user_prompt
    [("inputs", .list (inputs.map (fun m => .str m.id)))]
  { id := generate_operation_id kind.val (inputs.map (fun m => m.id)) Option.none now,
    type := kind.val,
    inputs := inputs.map (fun m => m.id),
    outputs := [output.id],
    timestamp := now,
    metadata := [("prompt_hash", .str prompt_hash_val),
                 ("model", .dict [("vendor", .str "dev"), ("name", .str "echo"),
                                  ("version", .str "0")])] }

/-- The Python files present in `src/chirality/core/` of the repository. -/
def coreSourceFiles : List String := ["ids.py", "ops.py", "types.py"]

/-- Model of `from .validate import validate_matrix_dimensions` inside
`op_multiply`, `op_elementwise` and `op_add`: the module
`chirality/core/validate.py` is not among the source files, so the import
raises `ModuleNotFoundError`. -/
def importCoreValidate : Except PyErr Unit :=
  if coreSourceFiles.contains "validate.py" then .ok ()
  else .error (.moduleNotFoundError "chirality.core.validate")

/-- Modelled from the spec: `validate_matrix_dimensions` of the missing
module `chirality.core.validate` (spec §4.3): multiply requires
`A.cols == B.rows`, add requires equal dimensions; a non-empty list of
errors is returned on failure.  Unreachable in practice: the import of the
module always fails first. -/
def validate_matrix_dimensions (A B : Matrix) (kind : String) : List String :=
  if kind = "multiply" then
    if A.dimensions.2 = B.dimensions.1 then [] else ["dimension mismatch"]
  else if A.dimensions = B.dimensions then [] else ["dimension mismatch"]

/-- The `context` dict built by each op function. -/
def opContext (station thread : String) : PyVal :=
  .dict [("station", .str station), ("thread", .str thread), ("rag_chunks", .dict [])]

/-- `op_multiply` from `ops.py`: `C = A * B`. -/
def op_multiply (thread : String) (A B : Matrix) (resolver : Resolver)
    (now : String) : Except PyErr (Matrix × Operation) := do
  importCoreValidate
  let errors := validate_matrix_dimensions A B "multiply"
  if errors ≠ [] then
    Except.error (.valueError "Cannot multiply matrices")
  else do
    let p := promptMultiply A B
    let vals ← resolver .star [A, B] p.1 p.2 (opContext "requirements" thread)
    let C ← buildOutputMatrix thread .C "requirements" vals now
    .ok (C, opRecord .star [A, B] C p.1 p.2 now)

/-- `op_interpret` from `ops.py`: `J = interpret(B)` (no validate import). -/
def op_interpret (thread : String) (B : Matrix) (resolver : Resolver)
    (now : String) : Except PyErr (Matrix × Operation) := do
  let p := promptInterpret B
  let vals ← resolver .interp [B] p.1 p.2 (opContext "objectives" thread)
  let J ← buildOutputMatrix thread .J "objectives" vals now
  .ok (J, opRecord .interp [B] J p.1 p.2 now)

/-- `op_elementwise` from `ops.py`: `F = J ⊙ C`. -/
def op_elementwise (thread : String) (J C : Matrix) (resolver : Resolver)
    (now : String) : Except PyErr (Matrix × Operation) := do
  importCoreValidate
  let errors := validate_matrix_dimensions J C "add"
  if errors ≠ [] then
    Except.error (.valueError "Cannot perform element-wise operation")
  else do
    let p := promptElementwise J C
    let vals ← resolver .odot [J, C] p.1 p.2 (opContext "objectives" thread)
    let F ← buildOutputMatrix thread .F "objectives" vals now
    .ok (F, opRecord .odot [J, C] F p.1 p.2 now)

/-- `op_add` from `ops.py`: `D = A + F`. -/
def op_add (thread : String) (A F : Matrix) (resolver : Resolver)
    (now : String) : Except PyErr (Matrix × Operation) := do
  importCoreValidate
  let errors := validate_matrix_dimensions A F "add"
  if errors ≠ [] then
    Except.error (.valueError "Cannot add matrices")
  else do
    let p := promptAdd A F
    let vals ← resolver .plus [A, F] p.1 p.2 (opContext "objectives" thread)
    let D ← buildOutputMatrix thread .D "objectives" vals now
    .ok (D, opRecord .plus [A, F] D p.1 p.2 now)

/-- `op_cross` from `ops.py`: `W = A × B` (no validate import; output
matrix type is `MatrixType.D`). -/
def op_cross (thread : String) (A B : Matrix) (resolver : Resolver)
    (now : String) : Except PyErr (Matrix × Operation) := do
  let p := promptCross A B
  let vals ← resolver .cross [A, B] p.1 p.2 (opContext "assessment" thread)
  let W ← buildOutputMatrix thread .D "assessment" vals now
  .ok (W, opRecord .cross [A, B] W p.1 p.2 now)

/-! ## Order facts about the Python string comparison -/

theorem char_eq_of_toNat_eq {a b : Char} (h : a.toNat = b.toNat) : a = b :=
  Char.ext (UInt32.ext (by simpa [Char.toNat] using h))

theorem charListLt_asymm : ∀ x y, charListLt x y = true → charListLt y x = false
  | [], [], h => by simp [charListLt] at h
  | [], _ :: _, _ => rfl
  | _ :: _, [], h => by simp [charListLt] at h
  | a :: as, b :: bs, h => by
      simp only [charListLt, Bool.or_eq_true, Bool.and_eq_true, decide_eq_true_eq,
        beq_iff_eq] at h
      simp only [charListLt, Bool.or_eq_false_iff, Bool.and_eq_false_iff,
        decide_eq_false_iff_not, beq_eq_false_iff_ne, ne_eq]
      rcases h with h | ⟨he, hlt⟩
      · exact ⟨by omega, Or.inl (by omega)⟩
      · refine ⟨by omega, ?_⟩
        by_cases hba : b.toNat = a.toNat
        · exact Or.inr (by simpa using charListLt_asymm as bs hlt)
        · exact Or.inl hba

theorem charListLt_connex : ∀ x y, charListLt x y = false → charListLt y x = false → x = y
  | [], [], _, _ => rfl
  | [], _ :: _, h, _ => by simp [charListLt] at h
  | _ :: _, [], _, h => by simp [charListLt] at h
  | a :: as, b :: bs, h₁, h₂ => by
      simp only [charListLt, Bool.or_eq_false_iff, Bool.and_eq_false_iff,
        decide_eq_false_iff_not, beq_eq_false_iff_ne, ne_eq] at h₁ h₂
      have hab : a.toNat = b.toNat := by omega
      have hc : a = b := char_eq_of_toNat_eq hab
      have h₁' : charListLt as bs = false := by
        rcases h₁.2 with h | h
        · exact absurd hab h
        · exact h
      have h₂' : charListLt bs as = false := by
        rcases h₂.2 with h | h
        · exact absurd hab.symm h
        · exact h
      rw [hc, charListLt_connex as bs h₁' h₂']

theorem charListLt_trans : ∀ x y z,
    charListLt x y = true → charListLt y z = true → charListLt x z = true
  | _, [], _, h, _ => by simp [charListLt] at h
  | _, _ :: _, [], _, h => by simp [charListLt] at h
  | [], _ :: _, _ :: _, _, _ => rfl
  | a :: as, b :: bs, c :: cs, h₁, h₂ => by
      simp only [charListLt, Bool.or_eq_true, Bool.and_eq_true, decide_eq_true_eq,
        beq_iff_eq] at h₁ h₂ ⊢
      rcases h₁ with h₁ | ⟨he₁, hlt₁⟩
      · rcases h₂ with h₂ | ⟨he₂, _⟩
        · exact Or.inl (by omega)
        · exact Or.inl (by omega)
      · rcases h₂ with h₂ | ⟨he₂, hlt₂⟩
        · exact Or.inl (by omega)
        · exact Or.inr ⟨by omega, charListLt_trans as bs cs hlt₁ hlt₂⟩

theorem strLeRel_iff (a b : String) : strLeRel a b ↔ charListLt b.data a.data = false := by
  simp [strLeRel, strLeB, strLtB]

instance : IsTotal String strLeRel :=
  ⟨fun a b => by
    rw [strLeRel_iff, strLeRel_iff]
    by_cases h : charListLt b.data a.data = false
    · exact Or.inl h
    · exact Or.inr (charListLt_asymm _ _ (by simpa using h))⟩

instance : IsTrans String strLeRel :=
  ⟨fun a b c hab hbc => by
    rw [strLeRel_iff] at hab hbc ⊢
    by_cases hca : charListLt c.data a.data = false
    · exact hca
    · have hca' : charListLt c.data a.data = true := by simpa using hca
      by_cases hbcd : charListLt b.data c.data = true
      · exact absurd (charListLt_trans _ _ _ hbcd hca') (by simp [hab])
      · have : b.data = c.data :=
          charListLt_connex _ _ (by simpa using hbcd) hbc
        rw [← this] at hca'
        exact absurd hca' (by simp [hab])⟩

theorem strLeRel_antisymm {a b : String} (h₁ : strLeRel a b) (h₂ : strLeRel b a) : a = b := by
  rw [strLeRel_iff] at h₁ h₂
  have := charListLt_connex _ _ h₂ h₁
  exact String.ext this

instance : IsAntisymm String strLeRel := ⟨fun _ _ => strLeRel_antisymm⟩

/-- Python `sorted` on strings depends only on the multiset of elements:
permuted inputs sort identically. -/
theorem pySorted_perm {l l' : List String} (h : l.Perm l') : pySorted l = pySorted l' :=
  List.eq_of_perm_of_sorted
    (((List.perm_insertionSort strLeRel l).trans h).trans
      (List.perm_insertionSort strLeRel l').symm)
    (List.sorted_insertionSort strLeRel l)
    (List.sorted_insertionSort strLeRel l')

instance : IsTotal (String × PyVal) pairLeRel := ⟨fun a b => total_of strLeRel a.1 b.1⟩

instance : IsTrans (String × PyVal) pairLeRel :=
  ⟨fun _ _ _ hab hbc => Trans.trans (r := strLeRel) (s := strLeRel) hab hbc⟩

/-- The strict key comparison on dict items. -/
def pairLtRel (p q : String × PyVal) : Prop := strLtB p.1 q.1 = true

instance : IsAntisymm (String × PyVal) pairLtRel :=
  ⟨fun a b h₁ h₂ => by
    have := charListLt_asymm _ _ (by simpa [pairLtRel, strLtB] using h₁)
    simp [pairLtRel, strLtB, this] at h₂⟩

theorem pairLtRel_of_le_of_ne {p q : String × PyVal} (hle : pairLeRel p q)
    (hne : p.1 ≠ q.1) : pairLtRel p q := by
  simp only [pairLeRel, strLeRel_iff] at hle
  simp only [pairLtRel, strLtB]
  by_cases h : charListLt p.1.data q.1.data = true
  · exact h
  · exact absurd (String.ext (charListLt_connex _ _ (by simpa using h) hle)) hne

/-- `json.dumps(..., sort_keys=True)` key sorting depends only on the
multiset of items when the keys are distinct (as they are for a Python
dict): permuted items sort identically. -/
theorem sortPairs_perm {d d' : List (String × PyVal)}
    (hnd : (d.map Prod.fst).Nodup) (h : d.Perm d') : sortPairs d = sortPairs d' := by
  have hperm : (sortPairs d).Perm (sortPairs d') :=
    ((List.perm_insertionSort pairLeRel d).trans h).trans
      (List.perm_insertionSort pairLeRel d').symm
  have hsor : ∀ e : List (String × PyVal), (e.map Prod.fst).Nodup →
      List.Sorted pairLtRel (sortPairs e) := by
    intro e hnde
    have hs := List.sorted_insertionSort pairLeRel e
    have hnd' : ((sortPairs e).map Prod.fst).Nodup :=
      (((List.perm_insertionSort pairLeRel e).map Prod.fst).nodup_iff).mpr hnde
    have hpn : (sortPairs e).Pairwise (fun p q => p.1 ≠ q.1) :=
      (List.pairwise_map).mp hnd'
    exact (hs.and hpn).imp (fun hx => pairLtRel_of_le_of_ne hx.1 hx.2)
  exact List.eq_of_perm_of_sorted hperm (hsor d hnd)
    (hsor d' (((h.map Prod.fst).nodup_iff).mp hnd))

/-! ## Idempotence of `_normalize`'s whitespace handling -/

/-- Every whitespace character of the list is a plain space. -/
def onlySp (l : List Char) : Prop := ∀ c ∈ l, isWs c = true → c = ' '

/-- No two adjacent characters are both whitespace. -/
def noRun (l : List Char) : Prop :=
  l.Chain' (fun a b => isWs a = false ∨ isWs b = false)

/-- The head (if any) is not whitespace. -/
def nlws (l : List Char) : Prop := ∀ c, l.head? = some c → isWs c = false

theorem subWsAux_nlws_true : ∀ l, nlws (subWsAux true l)
  | [] => by intro c h; simp [subWsAux] at h
  | c :: cs => by
      by_cases h : isWs c = true
      · simpa [subWsAux, h] using subWsAux_nlws_true cs
      · have e : subWsAux true (c :: cs) = c :: subWsAux false cs := by
          simp [subWsAux, h]
        intro d hd
        rw [e] at hd
        simp only [List.head?_cons, Option.some.injEq] at hd
        simpa [← hd] using h

theorem subWsAux_onlySp : ∀ (b : Bool) (l : List Char), onlySp (subWsAux b l)
  | _, [] => by intro c h; simp [subWsAux] at h
  | b, c :: cs => by
      by_cases h : isWs c = true
      · cases b with
        | true =>
            rw [show subWsAux true (c :: cs) = subWsAux true cs from by simp [subWsAux, h]]
            exact subWsAux_onlySp true cs
        | false =>
            rw [show subWsAux false (c :: cs) = ' ' :: subWsAux true cs from by
              simp [subWsAux, h]]
            intro d hd hw
            rcases List.mem_cons.mp hd with hd | hd
            · exact hd
            · exact subWsAux_onlySp true cs d hd hw
      · rw [show subWsAux b (c :: cs) = c :: subWsAux false cs from by simp [subWsAux, h]]
        intro d hd hw
        rcases List.mem_cons.mp hd with hd | hd
        · rw [hd] at hw; exact absurd hw (by simpa using h)
        · exact subWsAux_onlySp false cs d hd hw

theorem subWsAux_noRun : ∀ (b : Bool) (l : List Char), noRun (subWsAux b l)
  | _, [] => by simp [subWsAux, noRun]
  | b, c :: cs => by
      by_cases h : isWs c = true
      · cases b with
        | true => simpa [subWsAux, h] using subWsAux_noRun true cs
        | false =>
            have e : subWsAux false (c :: cs) = ' ' :: subWsAux true cs := by
              simp [subWsAux, h]
            rw [noRun, e, List.chain'_cons']
            exact ⟨fun d hd => Or.inr (subWsAux_nlws_true cs d (by simpa using hd)),
              subWsAux_noRun true cs⟩
      · have e : ∀ b, subWsAux b (c :: cs) = c :: subWsAux false cs := by
          intro b; simp [subWsAux, h]
        rw [noRun, e, List.chain'_cons']
        exact ⟨fun d _ => Or.inl (by simpa using h), subWsAux_noRun false cs⟩

theorem subWsAux_true_eq_false (l : List Char) (h : nlws l) :
    subWsAux true l = subWsAux false l := by
  cases l with
  | nil => rfl
  | cons c cs =>
      have hc : isWs c = false := h c rfl
      simp [subWsAux, hc]

theorem subWs_fix : ∀ l, onlySp l → noRun l → subWs l = l := by
  intro l
  induction l with
  | nil => intro _ _; rfl
  | cons c cs ih =>
      intro hsp hnr
      have hnr' : noRun cs := (List.chain'_cons'.mp hnr).2
      have hsp' : onlySp cs := fun d hd => hsp d (List.mem_cons_of_mem _ hd)
      by_cases h : isWs c = true
      · have hc : c = ' ' := hsp c (List.mem_cons_self _ _) h
        have hcs : nlws cs := by
          intro d hd
          rcases (List.chain'_cons'.mp hnr).1 d hd with hh | hh
          · exact absurd h (by simp [hh])
          · exact hh
        show subWsAux false (c :: cs) = c :: cs
        have e : subWsAux false (c :: cs) = ' ' :: subWsAux true cs := by
          simp [subWsAux, h]
        rw [e, subWsAux_true_eq_false cs hcs]
        rw [show subWsAux false cs = subWs cs from rfl, ih hsp' hnr', hc]
      · show subWsAux false (c :: cs) = c :: cs
        have e : subWsAux false (c :: cs) = c :: subWsAux false cs := by
          simp [subWsAux, h]
        rw [e, show subWsAux false cs = subWs cs from rfl, ih hsp' hnr']

theorem nlws_dropWhile (l : List Char) : nlws (l.dropWhile (isWs ·)) := by
  intro c hc
  cases e : l.dropWhile (isWs ·) with
  | nil => rw [e] at hc; simp at hc
  | cons d ds =>
      rw [e] at hc
      simp only [List.head?_cons, Option.some.injEq] at hc
      have hne : l.dropWhile (isWs ·) ≠ [] := by simp [e]
      have := List.head_dropWhile_not (fun c => isWs c) l hne
      rw [← hc]
      simpa [e] using this

theorem onlySp_sublist {l l' : List Char} (h : l' ⊆ l) (hsp : onlySp l) : onlySp l' :=
  fun c hc hw => hsp c (h hc) hw

theorem noRun_lstrip {l : List Char} (h : noRun l) : noRun (lstripWs l) :=
  h.suffix (List.dropWhile_suffix _)

theorem lstrip_fix {l : List Char} (h : nlws l) : lstripWs l = l := by
  cases l with
  | nil => rfl
  | cons c cs => simp [lstripWs, List.dropWhile_cons, h c rfl]

theorem noRun_rstrip {l : List Char} (h : noRun l) : noRun (rstripWs l) := by
  have hsym : ∀ (m : List Char), m.Chain' (fun a b => isWs a = false ∨ isWs b = false) →
      m.reverse.Chain' (fun a b : Char => isWs a = false ∨ isWs b = false) := by
    intro m hm
    rw [List.chain'_reverse]
    exact hm.imp (fun _ _ hr => hr.symm)
  have h1 : noRun l.reverse := hsym l h
  have h2 : noRun (l.reverse.dropWhile (isWs ·)) := h1.suffix (List.dropWhile_suffix _)
  exact hsym _ h2

theorem rstrip_pref (l : List Char) : rstripWs l <+: l := by
  have h : l.reverse.dropWhile (isWs ·) <:+ l.reverse := List.dropWhile_suffix _
  have := List.reverse_prefix.mpr h
  simpa [rstripWs] using this

theorem nlws_pref {l l' : List Char} (h : l' <+: l) (hn : nlws l) : nlws l' := by
  intro c hc
  rcases h with ⟨t, rfl⟩
  cases l' with
  | nil => simp at hc
  | cons d ds =>
      simp only [List.head?_cons, Option.some.injEq] at hc
      exact hn c (by simp [← hc])

theorem nlws_rev_rstrip (l : List Char) : nlws (rstripWs l).reverse := by
  have : (rstripWs l).reverse = l.reverse.dropWhile (isWs ·) := by
    simp [rstripWs]
  rw [this]
  exact nlws_dropWhile _

theorem rstrip_fix {l : List Char} (h : nlws l.reverse) : rstripWs l = l := by
  have : l.reverse.dropWhile (isWs ·) = l.reverse := by
    cases e : l.reverse with
    | nil => simp [e]
    | cons c cs =>
        have := h c (by simp [e])
        simp [e, List.dropWhile_cons, this]
  simp [rstripWs, this]

/-- `_normalize`'s whitespace pass is idempotent: collapsing runs and
stripping an already collapsed-and-stripped string changes nothing. -/
theorem normalizeStr_idem (s : String) : normalizeStr (normalizeStr s) = normalizeStr s := by
  rw [normalizeStr, normalizeStr, nfkc, nfkc]
  set u := s.data with hu
  set t := rstripWs (lstripWs (subWs u)) with ht
  have hdata : (String.mk t).data = t := rfl
  rw [hdata]
  have hsp : onlySp t := by
    apply onlySp_sublist (l := lstripWs (subWs u))
    · intro c hc
      exact (List.IsPrefix.subset (rstrip_pref _)) hc
    · exact onlySp_sublist (List.dropWhile_subset _) (subWsAux_onlySp false u)
  have hnr : noRun t := noRun_rstrip (noRun_lstrip (subWsAux_noRun false u))
  have hnl : nlws t := nlws_pref (rstrip_pref _) (nlws_dropWhile _)
  have h1 : subWs t = t := subWs_fix t hsp hnr
  have h2 : lstripWs t = t := lstrip_fix hnl
  have h3 : rstripWs t = t := rstrip_fix (by rw [ht]; exact nlws_rev_rstrip _)
  rw [h1, h2, h3]

/-! ## Reduction lemmas for the output-matrix builder -/

/-- The row-major cell list `_build_output_matrix` materializes on success. -/
def builtCells (matrix_id : String) (values : List (List String)) : List Cell :=
  ((List.range values.length).flatMap
      (fun r => (List.range (headLen values)).map (fun c => (r, c)))).map
    (fun p =>
      let content :=
        [("text", PyVal.str (canonical_value (.str ((values.getD p.1 []).getD p.2 ""))))]
      { id := generate_cell_id matrix_id p.1 p.2 content,
        row := p.1, col := p.2, content := content })

theorem exceptMapM_ok {α β : Type} (f : α → Except PyErr β) (g : α → β) :
    ∀ l : List α, (∀ a ∈ l, f a = .ok (g a)) → exceptMapM f l = .ok (l.map g)
  | [], _ => rfl
  | a :: as, h => by
      have h1 : f a = .ok (g a) := h a (List.mem_cons_self a as)
      have h2 : exceptMapM f as = .ok (as.map g) :=
        exceptMapM_ok f g as (fun x hx => h x (List.mem_cons_of_mem a hx))
      show (do
        let b ← f a
        let bs ← exceptMapM f as
        Except.ok (b :: bs)) = Except.ok (g a :: as.map g)
      rw [h1, h2]
      rfl

theorem pyIndex_ok {α : Type} (l : List α) (i : Nat) (d : α) (h : i < l.length) :
    pyIndex l i = .ok (l.getD i d) := by
  have hg : l.get? i = some l[i] := by
    simp [List.get?_eq_getElem?, h]
  simp [pyIndex, hg, List.getD, List.getElem?_eq_getElem, h]

theorem buildOutputMatrix_ok (thread : String) (mt : MatrixType) (station : String)
    (values : List (List String)) (now : String)
    (h : ∀ row ∈ values, headLen values ≤ row.length) :
    buildOutputMatrix thread mt station values now = .ok
      { id := generate_matrix_id mt.val thread 1, type := mt,
        cells := builtCells (generate_matrix_id mt.val thread 1) values,
        dimensions := (values.length, headLen values),
        metadata := [("station", .str station), ("timestamp", .str now)] } := by
  have hmap : exceptMapM (fun (p : Nat × Nat) => do
      let row ← pyIndex values p.1
      let v ← pyIndex row p.2
      let cell_content := [("text", PyVal.str (canonical_value (.str v)))]
      Except.ok ({ id := generate_cell_id (generate_matrix_id mt.val thread 1) p.1 p.2
                     cell_content,
                   row := p.1, col := p.2, content := cell_content } : Cell))
      ((List.range values.length).flatMap
        (fun r => (List.range (headLen values)).map (fun c => (r, c))))
      = .ok (builtCells (generate_matrix_id mt.val thread 1) values) := by
    apply exceptMapM_ok
    intro p hp
    rcases List.mem_flatMap.mp hp with ⟨r, hr, hpr⟩
    rcases List.mem_map.mp hpr with ⟨c, hc, rfl⟩
    have hrlt : r < values.length := List.mem_range.mp hr
    have hclt : c < headLen values := List.mem_range.mp hc
    have hrow : values.getD r [] = values[r] := by
      simp [List.getD, List.getElem?_eq_getElem, hrlt]
    have hrmem : values[r] ∈ values := List.getElem_mem hrlt
    have hclen : c < (values.getD r []).length := by
      rw [hrow]
      exact Nat.lt_of_lt_of_le hclt (h values[r] hrmem)
    rw [pyIndex_ok values r [] hrlt]
    show (do
      let v ← pyIndex (values.getD r []) c
      let cell_content := [("text", PyVal.str (canonical_value (.str v)))]
      Except.ok ({ id := generate_cell_id (generate_matrix_id mt.val thread 1) r c
                     cell_content,
                   row := r, col := c, content := cell_content } : Cell)) = _
    rw [pyIndex_ok (values.getD r []) c "" hclen]
    rfl
  unfold buildOutputMatrix
  dsimp only
  rw [hmap]
  rfl

theorem length_buildVals (rows cols : Nat) (f : Nat → Nat → String) :
    (buildVals rows cols f).length = rows := by
  simp [buildVals]

theorem mem_buildVals_length (rows cols : Nat) (f : Nat → Nat → String) :
    ∀ row ∈ buildVals rows cols f, row.length = cols := by
  intro row hrow
  rcases List.mem_map.mp hrow with ⟨r, _, rfl⟩
  simp

theorem headLen_buildVals_le (rows cols : Nat) (f : Nat → Nat → String) :
    ∀ row ∈ buildVals rows cols f, headLen (buildVals rows cols f) ≤ row.length := by
  intro row hrow
  rw [mem_buildVals_length rows cols f row hrow]
  cases rows with
  | zero => simp [buildVals] at hrow
  | succ n =>
      have : headLen (buildVals (n + 1) cols f) = cols := by
        simp [buildVals, headLen, List.range_succ_eq_map]
      rw [this]

theorem buildVals_getD (rows cols : Nat) (f : Nat → Nat → String) (r c : Nat)
    (hr : r < rows) (hc : c < cols) :
    ((buildVals rows cols f).getD r []).getD c "" = f r c := by
  have h1 : (buildVals rows cols f).getD r [] = (List.range cols).map (f r) := by
    simp [buildVals, List.getD, List.getElem?_map, List.getElem?_range, hr]
  rw [h1]
  simp [List.getD, List.getElem?_map, List.getElem?_range, hc]

/-! ## Serialization round trip -/

theorem cell_round_trip (c : Cell) : Cell.fromDict (Cell.toDict c) = .ok c := by
  cases c with
  | mk cid crow ccol ccon cmod cprov => cases cmod <;> rfl

theorem cells_round_trip : ∀ cells : List Cell,
    exceptMapM Cell.fromDict (cells.map Cell.toDict) = .ok cells
  | [] => rfl
  | c :: cs => by
      show (do
        let b ← Cell.fromDict (Cell.toDict c)
        let bs ← exceptMapM Cell.fromDict (cs.map Cell.toDict)
        Except.ok (b :: bs)) = Except.ok (c :: cs)
      rw [cell_round_trip c, cells_round_trip cs]
      rfl

/-! ## Hex-digest format of the generated identifiers -/

/-- Lower-case hexadecimal digit test. -/
def isHexCh (c : Char) : Bool := hexChars.contains c

theorem toHexW_length : ∀ w n, (toHexW w n).length = w
  | 0, _ => rfl
  | w + 1, n => by simp [toHexW, toHexW_length w]

theorem hexDigit_mem (n : Nat) : hexDigit n ∈ hexChars := by
  have h : n % 16 < hexChars.length := by
    have : hexChars.length = 16 := rfl
    omega
  rw [hexDigit, List.getD_eq_getElem hexChars '0' h]
  exact List.getElem_mem h

theorem toHexW_hex : ∀ w n, ∀ c ∈ toHexW w n, isHexCh c = true
  | 0, _, c, hc => by simp [toHexW] at hc
  | w + 1, n, c, hc => by
      rw [toHexW] at hc
      rcases List.mem_append.mp hc with h | h
      · exact toHexW_hex w (n / 16) c h
      · have : c = hexDigit (n % 16) := by simpa using h
        rw [this]
        simpa [isHexCh] using hexDigit_mem (n % 16)

theorem sha256Round_length (st : List Nat) (kw : Nat × Nat) :
    (sha256Round st kw).length = st.length := by
  unfold sha256Round
  split <;> rfl

theorem foldl_sha256Round_length (l : List (Nat × Nat)) :
    ∀ st : List Nat, (l.foldl sha256Round st).length = st.length := by
  induction l with
  | nil => intro st; rfl
  | cons x xs ih =>
      intro st
      rw [List.foldl_cons, ih, sha256Round_length]

theorem sha256Compress_length (st block : List Nat) :
    (sha256Compress st block).length = st.length := by
  unfold sha256Compress
  rw [List.length_map, List.length_zip, foldl_sha256Round_length]
  exact Nat.min_self _

theorem foldl_sha256Compress_length (blocks : List (List Nat)) :
    ∀ st : List Nat, (blocks.foldl sha256Compress st).length = st.length := by
  induction blocks with
  | nil => intro st; rfl
  | cons b bs ih =>
      intro st
      rw [List.foldl_cons, ih, sha256Compress_length]

theorem sha256Words_length (msg : List Nat) : (sha256Words msg).length = 8 := by
  unfold sha256Words
  rw [foldl_sha256Compress_length]
  rfl

theorem sha256HexBytes_spec (msg : List Nat) :
    (sha256HexBytes msg).data.length = 64 ∧
      ∀ c ∈ (sha256HexBytes msg).data, isHexCh c = true := by
  constructor
  · show (((sha256Words msg).map (toHexW 8)).flatten).length = 64
    rw [List.length_flatten, List.map_map]
    have hcg : (sha256Words msg).map (List.length ∘ toHexW 8)
        = (sha256Words msg).map (fun _ => 8) :=
      List.map_congr_left (fun n _ => toHexW_length 8 n)
    rw [hcg]
    have : ∀ l : List Nat, (l.map (fun _ => (8 : Nat))).sum = 8 * l.length := by
      intro l
      induction l with
      | nil => rfl
      | cons a as ih => simp [ih]; ring
    rw [this, sha256Words_length]
  · intro c hc
    have hc' : c ∈ ((sha256Words msg).map (toHexW 8)).flatten := hc
    rcases List.mem_flatten.mp hc' with ⟨sub, hsub, hcsub⟩
    rcases List.mem_map.mp hsub with ⟨w, _, rfl⟩
    exact toHexW_hex 8 w c hcsub

theorem strTake12_format (s : String) (h : s.data.length = 64)
    (hhex : ∀ c ∈ s.data, isHexCh c = true) :
    (strTake s 12).data.length = 12 ∧ ∀ c ∈ (strTake s 12).data, isHexCh c = true := by
  constructor
  · show (s.data.take 12).length = 12
    rw [List.length_take, h]
    omega
  · intro c hc
    exact hhex c (List.take_subset 12 s.data hc)

theorem MatrixType.ofVal_val (t : MatrixType) : MatrixType.ofVal t.val = .ok t := by
  cases t <;> rfl

/-- C9: for every constructed Grid, including the empty grid and 1×1 grids,
parsing its serialized map-of-fields representation reproduces an equal Grid:
`Matrix.from_dict(Matrix.to_dict(m)) == m`, with id, type, cells (id, row,
col, content, modality, provenance), dimensions and metadata all
preserved. -/
theorem c9_grid_serialization_round_trip (m : Matrix) :
    Matrix.fromDict (Matrix.toDict m) = .ok m := by
  cases m with
  | mk id t cells dims md =>
      have h1 : Matrix.fromDict (Matrix.toDict ⟨id, t, cells, dims, md⟩)
          = Except.bind (MatrixType.ofVal t.val) (fun ty =>
              Except.bind (exceptMapM Cell.fromDict (cells.map Cell.toDict)) (fun cs =>
                Except.ok ⟨id, ty, cs, dims, md⟩)) := rfl
      rw [h1, MatrixType.ofVal_val, cells_round_trip]
      rfl

/-- C10: every `generate_*_id` function returns a tagged hex-digest string
(12 lower-case hex characters after the type tag) for every input and never
fails; when the optional timestamp is absent, the current clock reading is
substituted by the fixed default rule, so the call equals the same call with
that timestamp passed explicitly; cell id generation succeeds for every
content dictionary. -/
theorem c10_id_generators_total_and_tagged (user_id session_id matrix_type thread_id
    matrix_id : String) (sequence row col : Nat) (content : List (String × PyVal))
    (operation_type : String) (input_ids : List String) (timestamp : Option String)
    (now : String) :
    (∃ h, generate_thread_id user_id session_id timestamp now = "thread_" ++ h
        ∧ h.data.length = 12 ∧ ∀ c ∈ h.data, isHexCh c = true)
  ∧ generate_thread_id user_id session_id Option.none now
      = generate_thread_id user_id session_id (some now) now
  ∧ (∃ h, generate_matrix_id matrix_type thread_id sequence
        = "matrix_" ++ matrix_type ++ "_" ++ h
        ∧ h.data.length = 12 ∧ ∀ c ∈ h.data, isHexCh c = true)
  ∧ (∃ h, generate_cell_id matrix_id row col content = "cell_" ++ h
        ∧ h.data.length = 12 ∧ ∀ c ∈ h.data, isHexCh c = true)
  ∧ (∃ h, generate_operation_id operation_type input_ids timestamp now = "op_" ++ h
        ∧ h.data.length = 12 ∧ ∀ c ∈ h.data, isHexCh c = true)
  ∧ generate_operation_id operation_type input_ids Option.none now
      = generate_operation_id operation_type input_ids (some now) now := by
  have hfmt : ∀ s : String, (strTake (sha256Hex s) 12).data.length = 12
      ∧ ∀ c ∈ (strTake (sha256Hex s) 12).data, isHexCh c = true := fun s =>
    strTake12_format _ (sha256HexBytes_spec (utf8 s)).1 (sha256HexBytes_spec (utf8 s)).2
  exact ⟨⟨_, rfl, (hfmt _).1, (hfmt _).2⟩, rfl,
    ⟨_, rfl, (hfmt _).1, (hfmt _).2⟩,
    ⟨_, rfl, (hfmt _).1, (hfmt _).2⟩,
    ⟨_, rfl, (hfmt _).1, (hfmt _).2⟩, rfl⟩

/-- C2: every call to `op_multiply`, `op_elementwise` or `op_add` fails
before invoking the resolver, because each begins with
`from .validate import validate_matrix_dimensions` and the module
`chirality.core.validate` does not exist in the source tree; only
`op_interpret` and `op_cross`, which do not perform this import, complete
and return a `(Matrix, Operation)` pair (shown with the Echo resolver). -/
theorem c2_missing_validate_module_gates_ops (thread : String) (A B J C₀ F : Matrix)
    (resolver : Resolver) (now : String) :
    op_multiply thread A B resolver now
      = .error (.moduleNotFoundError "chirality.core.validate")
  ∧ op_elementwise thread J C₀ resolver now
      = .error (.moduleNotFoundError "chirality.core.validate")
  ∧ op_add thread A F resolver now
      = .error (.moduleNotFoundError "chirality.core.validate")
  ∧ (∃ M op, op_interpret thread B echoResolve now = .ok (M, op))
  ∧ (∃ W op, op_cross thread A B echoResolve now = .ok (W, op)) := by
  refine ⟨rfl, rfl, rfl, ?_, ?_⟩
  · have h := buildOutputMatrix_ok thread .J "objectives"
      (buildVals B.dimensions.1 B.dimensions.2 (fun r c =>
        "interp:" ++ B.type.val ++ "[" ++ toString r ++ "," ++ toString c ++ "]")) now
      (headLen_buildVals_le _ _ _)
    rw [show op_interpret thread B echoResolve now
        = Except.bind (buildOutputMatrix thread .J "objectives"
            (buildVals B.dimensions.1 B.dimensions.2 (fun r c =>
              "interp:" ++ B.type.val ++ "[" ++ toString r ++ "," ++ toString c ++ "]")) now)
          (fun J => Except.ok (J, opRecord .interp [B] J (promptInterpret B).1
            (promptInterpret B).2 now)) from rfl, h]
    exact ⟨_, _, rfl⟩
  · have h := buildOutputMatrix_ok thread .D "assessment"
      (buildVals (A.dimensions.1 * B.dimensions.1) (A.dimensions.2 * B.dimensions.2)
        (fun r c =>
          "×:" ++ A.type.val ++ "[" ++ toString (r / B.dimensions.1) ++ "," ++
            toString (c / B.dimensions.2) ++ "]⨂" ++ B.type.val ++ "[" ++
            toString (r % B.dimensions.1) ++ "," ++ toString (c % B.dimensions.2) ++ "]"))
      now (headLen_buildVals_le _ _ _)
    rw [show op_cross thread A B echoResolve now
        = Except.bind (buildOutputMatrix thread .D "assessment"
            (buildVals (A.dimensions.1 * B.dimensions.1) (A.dimensions.2 * B.dimensions.2)
              (fun r c =>
                "×:" ++ A.type.val ++ "[" ++ toString (r / B.dimensions.1) ++ "," ++
                  toString (c / B.dimensions.2) ++ "]⨂" ++ B.type.val ++ "[" ++
                  toString (r % B.dimensions.1) ++ "," ++
                  toString (c % B.dimensions.2) ++ "]")) now)
          (fun W => Except.ok (W, opRecord .cross [A, B] W (promptCross A B).1
            (promptCross A B).2 now)) from rfl, h]
    exact ⟨_, _, rfl⟩

/-- C5: for every pair of input matrices and every output position `(r, c)`
of the cross-product (expand) operation with the synthetic resolver, the
output value at `(r, c)` names exactly the source positions
`A[r // rows(B), c // cols(B)]` and `B[r % rows(B), c % cols(B)]`
(row-major block expansion). -/
theorem c5_expand_index_law (A B : Matrix) (system_prompt user_prompt : String)
    (context : PyVal) (r c : Nat) (hr : r < A.dimensions.1 * B.dimensions.1)
    (hc : c < A.dimensions.2 * B.dimensions.2) :
    (echoResolve .cross [A, B] system_prompt user_prompt context).map
        (fun v => (v.getD r []).getD c "")
      = .ok ("×:" ++ A.type.val ++ "[" ++ toString (r / B.dimensions.1) ++ "," ++
          toString (c / B.dimensions.2) ++ "]⨂" ++ B.type.val ++ "[" ++
          toString (r % B.dimensions.1) ++ "," ++ toString (c % B.dimensions.2) ++ "]") := by
  show Except.ok (((buildVals (A.dimensions.1 * B.dimensions.1)
      (A.dimensions.2 * B.dimensions.2)
      (fun r c =>
        "×:" ++ A.type.val ++ "[" ++ toString (r / B.dimensions.1) ++ "," ++
          toString (c / B.dimensions.2) ++ "]⨂" ++ B.type.val ++ "[" ++
          toString (r % B.dimensions.1) ++ "," ++
          toString (c % B.dimensions.2) ++ "]")).getD r []).getD c "") = _
  rw [buildVals_getD _ _ _ r c hr hc]

/-- Test fixture: a 2×2 grid of type `A`. -/
def fixA2 : Matrix :=
  { id := "matrix_A_0001", type := .A,
    cells := [⟨"cA00", 0, 0, [("text", .str "a00")], .unkn, []⟩,
              ⟨"cA01", 0, 1, [("text", .str "a01")], .unkn, []⟩,
              ⟨"cA10", 1, 0, [("text", .str "a10")], .unkn, []⟩,
              ⟨"cA11", 1, 1, [("text", .str "a11")], .unkn, []⟩],
    dimensions := (2, 2) }

/-- Test fixture: a 2×2 grid of type `B`. -/
def fixB2 : Matrix :=
  { id := "matrix_B_0001", type := .B,
    cells := [⟨"cB00", 0, 0, [("text", .str "b00")], .unkn, []⟩,
              ⟨"cB01", 0, 1, [("text", .str "b01")], .unkn, []⟩,
              ⟨"cB10", 1, 0, [("text", .str "b10")], .unkn, []⟩,
              ⟨"cB11", 1, 1, [("text", .str "b11")], .unkn, []⟩],
    dimensions := (2, 2) }

/-- Witness for C5 at 2×2 inputs: `W[3][3]` derives from `A[1][1]` and
`B[1][1]`, and `W[0][2]` derives from `A[0][1]` and `B[0][0]`. -/
theorem c5_expand_index_law_witness :
    (3 < fixA2.dimensions.1 * fixB2.dimensions.1
      ∧ 3 < fixA2.dimensions.2 * fixB2.dimensions.2
      ∧ (echoResolve .cross [fixA2, fixB2] "s" "u" (.dict [])).map
          (fun v => (v.getD 3 []).getD 3 "") = .ok "×:A[1,1]⨂B[1,1]")
  ∧ (0 < fixA2.dimensions.1 * fixB2.dimensions.1
      ∧ 2 < fixA2.dimensions.2 * fixB2.dimensions.2
      ∧ (echoResolve .cross [fixA2, fixB2] "s" "u" (.dict [])).map
          (fun v => (v.getD 0 []).getD 2 "") = .ok "×:A[0,1]⨂B[0,0]") :=
  ⟨⟨by decide, by decide,
      c5_expand_index_law fixA2 fixB2 "s" "u" (.dict []) 3 3 (by decide) (by decide)⟩,
   ⟨by decide, by decide,
      c5_expand_index_law fixA2 fixB2 "s" "u" (.dict []) 0 2 (by decide) (by decide)⟩⟩

/-- Test fixture: a 1×1 grid of type `B` with cell text `"x"`. -/
def fixB1 : Matrix :=
  { id := "matrix_B_0002", type := .B,
    cells := [⟨"cB0", 0, 0, [("text", .str "x")], .unkn, []⟩],
    dimensions := (1, 1) }

/-- C1 (falsified by the code): the operation algebra is not deterministic
across runs, because `_op_record` hashes `datetime.utcnow()` into the
operation id.  Two runs of `op_interpret` with the Echo resolver on the same
thread and the same input grid, at two different clock readings, produce an
identical output grid id and identical cells, but different Operation ids —
contradicting the claim and `ids.py`'s own documentation ("All IDs are
content-based and deterministic", "Generate deterministic operation ID"). -/
theorem c1_op_id_not_deterministic_across_runs :
    ((op_interpret "t" fixB1 echoResolve "2024-01-01T00:00:00").map (fun p => p.1.id)
      = (op_interpret "t" fixB1 echoResolve "2024-01-01T00:00:01").map (fun p => p.1.id))
  ∧ ((op_interpret "t" fixB1 echoResolve "2024-01-01T00:00:00").map (fun p => p.1.cells)
      = (op_interpret "t" fixB1 echoResolve "2024-01-01T00:00:01").map (fun p => p.1.cells))
  ∧ ((op_interpret "t" fixB1 echoResolve "2024-01-01T00:00:00").map (fun p => p.2.id)
      ≠ (op_interpret "t" fixB1 echoResolve "2024-01-01T00:00:01").map (fun p => p.2.id)) :=
  ⟨by decide, by decide, by decide⟩

/-- C3 counterexample: two `_op_record` invocations with the same kind, the
same inputs, the same output and the same prompts, at two different clock
readings, receive different operation ids — so the operation id cannot be a
hash of exactly (kind, sorted input ids, output content hash, request
hash). -/
theorem c3_op_id_depends_on_clock :
    (opRecord .star [fixA2, fixB2] fixA2 "s" "u" "2024-01-01T00:00:00").id
      ≠ (opRecord .star [fixA2, fixB2] fixA2 "s" "u" "2024-01-01T00:00:01").id := by
  decide

/-- C3 amended: the generated operation id is a hash of exactly the
operation kind, the sorted input ids, and a timestamp (`_op_record` passes
the current clock reading, not the output content hash or the request hash):
records sharing kind, inputs and clock reading share the id for any outputs
and any prompts, and input order is immaterial. -/
theorem c3_operation_id_composition (k : OpKind) (inputs : List Matrix)
    (o o' : Matrix) (s1 u1 s2 u2 now t : String) (l l' : List String)
    (hp : l.Perm l') :
    (opRecord k inputs o s1 u1 now).id = (opRecord k inputs o' s2 u2 now).id
  ∧ generate_operation_id k.val l (some t) now
      = generate_operation_id k.val l' (some t) now
  ∧ (opRecord k inputs o s1 u1 now).id
      = generate_operation_id k.val (inputs.map (fun m => m.id)) Option.none now := by
  refine ⟨rfl, ?_, rfl⟩
  unfold generate_operation_id
  rw [pySorted_perm hp]

/-- Witness for the amended C3 at concrete inputs. -/
theorem c3_operation_id_composition_witness :
    ["m2", "m1"].Perm ["m1", "m2"]
  ∧ ((opRecord .star [fixA2, fixB2] fixA2 "s" "u" "T0").id
        = (opRecord .star [fixA2, fixB2] fixB2 "x" "y" "T0").id
      ∧ generate_operation_id OpKind.star.val ["m2", "m1"] (some "T") "T0"
          = generate_operation_id OpKind.star.val ["m1", "m2"] (some "T") "T0"
      ∧ (opRecord .star [fixA2, fixB2] fixA2 "s" "u" "T0").id
          = generate_operation_id OpKind.star.val
              ([fixA2, fixB2].map (fun m => m.id)) Option.none "T0") :=
  ⟨by decide,
    c3_operation_id_composition .star [fixA2, fixB2] fixA2 fixB2 "s" "u" "x" "y"
      "T0" "T" ["m2", "m1"] ["m1", "m2"] (by decide)⟩

/-- Test fixture: a resolver that returns a fixed value array regardless of
the request. -/
def constResolver (v : List (List String)) : Resolver := fun _ _ _ _ _ => .ok v

/-- C4 counterexample: a resolver returning a 1×1 array for a 2×2 input of
`op_interpret` is silently accepted — the operation returns an output grid
of dimensions (1, 1) instead of raising or returning an error. -/
theorem c4_shape_mismatch_silently_accepted :
    fixB2.dimensions = (2, 2)
  ∧ (op_interpret "t" fixB2 (constResolver [["z"]]) "T0").map (fun p => p.1.dimensions)
      = .ok (1, 1) :=
  ⟨rfl, by decide⟩

/-- C4 amended: the operation algebra performs no shape check on the
resolver's return value: any 2-D array whose rows are at least as long as
its first row is accepted, the output grid's dimensions are taken from the
returned array (not from the shape determined by the kind and inputs), rows
longer than the first are silently truncated to the first row's length, and
a row shorter than the first row raises an `IndexError`. -/
theorem c4_resolver_shape_unchecked (thread : String) (B : Matrix)
    (v : List (List String)) (now : String)
    (h : ∀ row ∈ v, headLen v ≤ row.length) :
    ((op_interpret thread B (constResolver v) now).map (fun p => p.1.dimensions)
        = .ok (v.length, headLen v))
  ∧ ((op_interpret thread B (constResolver v) now).map
        (fun p => p.1.cells.map (fun cl => (cl.row, cl.col, cl.content)))
      = .ok (((List.range v.length).flatMap (fun r =>
            (List.range (headLen v)).map (fun c => (r, c)))).map (fun p =>
          (p.1, p.2,
            [("text", PyVal.str (canonical_value (.str ((v.getD p.1 []).getD p.2 ""))))]))))
  ∧ op_interpret thread B (constResolver [["a", "b"], ["c"]]) now
      = .error .indexError := by
  have hb := buildOutputMatrix_ok thread .J "objectives" v now h
  have hrun : op_interpret thread B (constResolver v) now
      = Except.bind (buildOutputMatrix thread .J "objectives" v now)
        (fun J => Except.ok (J, opRecord .interp [B] J (promptInterpret B).1
          (promptInterpret B).2 now)) := rfl
  refine ⟨?_, ?_, ?_⟩
  · rw [hrun, hb]
    rfl
  · rw [hrun, hb]
    show Except.ok ((builtCells (generate_matrix_id MatrixType.J.val thread 1) v).map
      (fun cl => (cl.row, cl.col, cl.content))) = _
    rw [builtCells, List.map_map]
    rfl
  · rfl

/-- Witness for the amended C4 at concrete inputs. -/
theorem c4_resolver_shape_unchecked_witness :
    (∀ row ∈ [["z"]], headLen [["z"]] ≤ row.length)
  ∧ (((op_interpret "t" fixB2 (constResolver [["z"]]) "T0").map
          (fun p => p.1.dimensions) = .ok ([["z"]].length, headLen [["z"]]))
      ∧ ((op_interpret "t" fixB2 (constResolver [["z"]]) "T0").map
            (fun p => p.1.cells.map (fun cl => (cl.row, cl.col, cl.content)))
          = .ok (((List.range [["z"]].length).flatMap (fun r =>
                (List.range (headLen [["z"]])).map (fun c => (r, c)))).map (fun p =>
              (p.1, p.2,
                [("text", PyVal.str (canonical_value
                  (.str (([["z"]].getD p.1 []).getD p.2 ""))))]))))
      ∧ op_interpret "t" fixB2 (constResolver [["a", "b"], ["c"]]) "T0"
          = .error .indexError) :=
  ⟨by decide, c4_resolver_shape_unchecked "t" fixB2 [["z"]] "T0" (by decide)⟩

/-- Test fixture: 1×1 type-`A` grid with content `"x"`, first id. -/
def fixA1a : Matrix :=
  { id := "matrix_A_0002", type := .A,
    cells := [⟨"cA0", 0, 0, [("text", .str "x")], .unkn, []⟩], dimensions := (1, 1) }

/-- Test fixture: 1×1 type-`A` grid with content `"x"`, fresh id. -/
def fixA1b : Matrix :=
  { id := "matrix_A_0003", type := .A,
    cells := [⟨"cA1", 0, 0, [("text", .str "x")], .unkn, []⟩], dimensions := (1, 1) }

/-- Test fixture: 1×1 type-`B` grid with content `"y"`, first id. -/
def fixB1a : Matrix :=
  { id := "matrix_B_0003", type := .B,
    cells := [⟨"cB1", 0, 0, [("text", .str "y")], .unkn, []⟩], dimensions := (1, 1) }

/-- Test fixture: 1×1 type-`B` grid with content `"y"`, fresh id. -/
def fixB1b : Matrix :=
  { id := "matrix_B_0004", type := .B,
    cells := [⟨"cB2", 0, 0, [("text", .str "y")], .unkn, []⟩], dimensions := (1, 1) }

/-- C6 counterexample: re-running combine's materialization path
(`EchoResolver.resolve` for `*` followed by `_build_output_matrix`) with
fresh input grid ids carrying the same content, in the same thread, produces
a completely identical output — including the output grid id.  The claim's
"different output grid id" is false: the grid id depends only on the output
type, thread and sequence, not on the input grids. -/
theorem c6_fresh_input_ids_same_grid_id :
    fixA1a.id ≠ fixA1b.id ∧ fixB1a.id ≠ fixB1b.id
  ∧ ((echoResolve .star [fixA1a, fixB1a] "s" "u" (.dict [])).bind
        (fun v => buildOutputMatrix "t" .C "requirements" v "T0"))
      = ((echoResolve .star [fixA1b, fixB1b] "s" "u" (.dict [])).bind
        (fun v => buildOutputMatrix "t" .C "requirements" v "T0")) :=
  ⟨by decide, by decide, rfl⟩

/-- C6 amended: for 1×1 inputs `A = [["x"]]`, `B = [["y"]]`, the combine
materialization path with the Echo resolver yields a 1×1 output grid whose
single cell's raw value is a fixed function of the input matrix types alone
(so is unchanged under fresh input grid or cell ids carrying the same
content); the output grid id equals `generate_matrix_id("C", thread, 1)`,
depending only on the thread and sequence — re-running with fresh input ids
in the same thread reproduces the same output grid id, and only a different
thread (or sequence) yields a different one. -/
theorem c6_combine_output_positional_id (thread now x y idA idB idA' idB'
    cidA cidB cidA' cidB' : String) :
    ((echoResolve .star
        [{ id := idA, type := .A,
           cells := [⟨cidA, 0, 0, [("text", .str x)], .unkn, []⟩], dimensions := (1, 1) },
         { id := idB, type := .B,
           cells := [⟨cidB, 0, 0, [("text", .str y)], .unkn, []⟩], dimensions := (1, 1) }]
        "s" "u" (.dict [])).bind
        (fun v => buildOutputMatrix thread .C "requirements" v now))
      = ((echoResolve .star
        [{ id := idA', type := .A,
           cells := [⟨cidA', 0, 0, [("text", .str x)], .unkn, []⟩], dimensions := (1, 1) },
         { id := idB', type := .B,
           cells := [⟨cidB', 0, 0, [("text", .str y)], .unkn, []⟩], dimensions := (1, 1) }]
        "s" "u" (.dict [])).bind
        (fun v => buildOutputMatrix thread .C "requirements" v now))
  ∧ ((echoResolve .star
        [{ id := idA, type := .A,
           cells := [⟨cidA, 0, 0, [("text", .str x)], .unkn, []⟩], dimensions := (1, 1) },
         { id := idB, type := .B,
           cells := [⟨cidB, 0, 0, [("text", .str y)], .unkn, []⟩], dimensions := (1, 1) }]
        "s" "u" (.dict [])).bind
        (fun v => buildOutputMatrix thread .C "requirements" v now)).map
        (fun M => (M.id, M.dimensions, M.cells.map (fun cl => cl.content)))
      = .ok (generate_matrix_id "C" thread 1, (1, 1),
          [[("text", .str "*:A[0,:]B[:,0]")]]) := by
  constructor
  · rfl
  · have hb := buildOutputMatrix_ok thread .C "requirements" [["*:A[0,:]B[:,0]"]] now
      (by decide)
    rw [show (echoResolve .star
        [{ id := idA, type := .A,
           cells := [⟨cidA, 0, 0, [("text", .str x)], .unkn, []⟩], dimensions := (1, 1) },
         { id := idB, type := .B,
           cells := [⟨cidB, 0, 0, [("text", .str y)], .unkn, []⟩], dimensions := (1, 1) }]
        "s" "u" (.dict [])).bind
        (fun v => buildOutputMatrix thread .C "requirements" v now)
      = buildOutputMatrix thread .C "requirements" [["*:A[0,:]B[:,0]"]] now from rfl, hb]
    rfl

theorem sortAllPairs_eq_map : ∀ ps : List (String × PyVal),
    sortAllPairs ps = ps.map (fun p => (p.1, sortAll p.2))
  | [] => rfl
  | (k, v) :: ps => by
      rw [sortAllPairs, sortAllPairs_eq_map ps]
      rfl

/-- C7 counterexample: canonicalization is not idempotent on maps: for the
map with single entry `"a" ↦ "x  y"` (value containing a whitespace run),
the canonical string contains the run, and canonicalizing that string again
collapses the run, yielding a different string. -/
theorem c7_canonicalize_not_idempotent_on_maps :
    canonical_value (.str (canonical_value (.dict [("a", .str "x  y")])))
      ≠ canonical_value (.dict [("a", .str "x  y")]) := by
  decide

/-- C7 amended: canonicalization is idempotent on text inputs
(`canonicalize(canonicalize(x)) = canonicalize(x)` for strings), and two
maps differing only in the insertion order of their (distinct-keyed) items
canonicalize to the identical string.  For map or sequence inputs whose
serialized string values contain a whitespace run, a second canonicalization
collapses the run and differs from the first. -/
theorem c7_canonicalize_text_idem_and_key_order :
    (∀ s : String, canonical_value (.str (canonical_value (.str s)))
        = canonical_value (.str s))
  ∧ (∀ d d' : List (String × PyVal), (d.map Prod.fst).Nodup → d.Perm d' →
      canonical_value (.dict d) = canonical_value (.dict d')) := by
  constructor
  · intro s
    exact normalizeStr_idem s
  · intro d d' hnd hp
    show dumpsRaw false (.dict (sortPairs (sortAllPairs d)))
      = dumpsRaw false (.dict (sortPairs (sortAllPairs d')))
    have hp' : (sortAllPairs d).Perm (sortAllPairs d') := by
      rw [sortAllPairs_eq_map, sortAllPairs_eq_map]
      exact hp.map _
    have hnd' : ((sortAllPairs d).map Prod.fst).Nodup := by
      rw [sortAllPairs_eq_map, List.map_map]
      simpa [Function.comp] using hnd
    rw [sortPairs_perm hnd' hp']

/-- Witness for the amended C7 at concrete inputs. -/
theorem c7_canonicalize_witness :
    canonical_value (.str (canonical_value (.str "a  b"))) = canonical_value (.str "a  b")
  ∧ (([("b", PyVal.str "2"), ("a", PyVal.str "1")].map Prod.fst).Nodup
  ∧ ([("b", PyVal.str "2"), ("a", PyVal.str "1")] : List (String × PyVal)).Perm
      [("a", PyVal.str "1"), ("b", PyVal.str "2")]
  ∧ canonical_value (.dict [("b", .str "2"), ("a", .str "1")])
      = canonical_value (.dict [("a", .str "1"), ("b", .str "2")])) :=
  ⟨c7_canonicalize_text_idem_and_key_order.1 "a  b",
   by decide, by decide,
   c7_canonicalize_text_idem_and_key_order.2 _ _ (by decide) (by decide)⟩

/-- C8 counterexample: a Grid carries no content hash: two grids built from
the same type, thread and sequence (and the same build timestamp) with
different cell contents agree on every field except `cells` — id, type,
dimensions and metadata are all identical — so no field of the grid record
functions as a content hash that "changes iff any cell's canonical content
changes". -/
theorem c8_no_content_hash_field :
    ((buildOutputMatrix "t" .C "s1" [["x"]] "T0").map
        (fun M => (M.id, M.type, M.dimensions, M.metadata))
      = (buildOutputMatrix "t" .C "s1" [["y"]] "T0").map
        (fun M => (M.id, M.type, M.dimensions, M.metadata)))
  ∧ ((buildOutputMatrix "t" .C "s1" [["x"]] "T0").map
        (fun M => M.cells.map (fun cl => cl.content))
      ≠ (buildOutputMatrix "t" .C "s1" [["y"]] "T0").map
        (fun M => M.cells.map (fun cl => cl.content))) :=
  ⟨by decide, by decide⟩

/-- C8 amended: the Grid data model carries no content hash — a `Matrix` has
exactly the fields id, type, cells, dimensions and metadata; grids built
from the same type, thread and sequence (same build timestamp) agree on id,
type and metadata regardless of cell content, and on dimensions whenever the
value arrays have equal shape: cell-content changes are visible only in the
cells themselves. -/
theorem c8_grid_fields_independent_of_content (thread : String) (mt : MatrixType)
    (station : String) (v v' : List (List String)) (now : String)
    (h : ∀ row ∈ v, headLen v ≤ row.length)
    (h' : ∀ row ∈ v', headLen v' ≤ row.length)
    (hlen : v.length = v'.length) (hhl : headLen v = headLen v') :
    (buildOutputMatrix thread mt station v now).map
        (fun M => (M.id, M.type, M.dimensions, M.metadata))
      = (buildOutputMatrix thread mt station v' now).map
        (fun M => (M.id, M.type, M.dimensions, M.metadata)) := by
  rw [buildOutputMatrix_ok thread mt station v now h,
      buildOutputMatrix_ok thread mt station v' now h', hlen, hhl]
  rw [show ∀ (M : Matrix), Except.map
      (fun M => (M.id, M.type, M.dimensions, M.metadata))
      (Except.ok M : Except PyErr Matrix)
      = Except.ok (M.id, M.type, M.dimensions, M.metadata) from fun _ => rfl,
    show ∀ (M : Matrix), Except.map
      (fun M => (M.id, M.type, M.dimensions, M.metadata))
      (Except.ok M : Except PyErr Matrix)
      = Except.ok (M.id, M.type, M.dimensions, M.metadata) from fun _ => rfl]

/-- Witness for the amended C8 at concrete inputs. -/
theorem c8_grid_fields_independent_witness :
    (∀ row ∈ [["x"]], headLen [["x"]] ≤ row.length)
  ∧ (∀ row ∈ [["y"]], headLen [["y"]] ≤ row.length)
  ∧ [["x"]].length = [["y"]].length
  ∧ headLen [["x"]] = headLen [["y"]]
  ∧ (buildOutputMatrix "t" MatrixType.C "s1" [["x"]] "T0").map
        (fun M => (M.id, M.type, M.dimensions, M.metadata))
      = (buildOutputMatrix "t" MatrixType.C "s1" [["y"]] "T0").map
        (fun M => (M.id, M.type, M.dimensions, M.metadata)) :=
  ⟨by decide, by decide, by decide, by decide,
   c8_grid_fields_independent_of_content "t" .C "s1" [["x"]] [["y"]] "T0"
     (by decide) (by decide) (by decide) (by decide)⟩

end Chirality
